import Mathlib

/-!
Shallow embedding of `src/rust-impl/src/ffi.rs` (BLS signature FFI wrappers)
together with the cryptographic core it calls (`BLSPKInG1`, `SerDes`), which
lives outside `src/` and is therefore modelled from the specification.

Group elements are modelled by their discrete logarithms: the secret-key
scalar group, public-key group and signature group are all `ZMod`-style
residues represented as `Nat` values reduced modulo the subgroup order
`grpOrd`.  A compressed point encoding is the big-endian fixed-width byte
string of that residue, preceded by the one-byte ciphersuite tag that the
aggregation policy compares (spec §4.5 / §9: the context tag embedded in
each signature's encoding).  Decoding validates exact length, a recognised
ciphersuite tag and a canonical (in-subgroup) residue, exactly the checks
the spec assigns to the serialization adapter.
-/

set_option maxRecDepth 8000

namespace BlsFfi

/-- A byte. -/
abbrev Byte := Fin 256

/-- Modelled from the spec: fixed compile-time length of a serialized secret
key (one ciphersuite byte plus a 32-byte scalar).  The constant `SK_LEN`
itself is declared outside `src/`. -/
def SK_LEN : Nat := 33

/-- Modelled from the spec: fixed compile-time length of a serialized public
key (one ciphersuite byte plus a 48-byte compressed group element). -/
def PK_LEN : Nat := 49

/-- Modelled from the spec: fixed compile-time length of a serialized
signature (one ciphersuite byte plus a 96-byte compressed group element). -/
def SIG_LEN : Nat := 97

/-- Modelled from the spec: the order of the prime-order subgroup in which
all key and signature material lives (the BLS12-381 scalar field order). -/
def grpOrd : Nat :=
  52435875175126190479447740508185965837690552500527637822603658699938581184513

theorem grpOrd_pos : 0 < grpOrd := by decide

theorem grpOrd_lt_pow32 : grpOrd < 256 ^ 32 := by decide

/-- Big-endian interpretation of a byte string as a natural number. -/
def bytesToNat (bs : List Byte) : Nat :=
  bs.foldl (fun acc b => acc * 256 + b.val) 0

/-- Big-endian fixed-width encoding of a natural number (width first). -/
def natToBytes : Nat → Nat → List Byte
  | 0, _ => []
  | l + 1, n => natToBytes l (n / 256) ++ [⟨n % 256, Nat.mod_lt n (by decide)⟩]

theorem natToBytes_length (l n : Nat) : (natToBytes l n).length = l := by
  induction l generalizing n with
  | zero => rfl
  | succ l ih =>
    rw [natToBytes]
    simp [ih]

theorem foldl_base (bs : List Byte) (a : Nat) :
    bs.foldl (fun acc b => acc * 256 + b.val) a =
      a * 256 ^ bs.length + bs.foldl (fun acc b => acc * 256 + b.val) 0 := by
  induction bs generalizing a with
  | nil => simp
  | cons b t ih =>
    rw [List.foldl_cons, List.foldl_cons, ih, ih (0 * 256 + b.val), List.length_cons]
    ring

theorem bytesToNat_aux (bs : List Byte) (a : Nat) :
    bs.foldl (fun acc b => acc * 256 + b.val) a =
      a * 256 ^ bs.length + bytesToNat bs :=
  foldl_base bs a

theorem bytesToNat_natToBytes (l n : Nat) :
    bytesToNat (natToBytes l n) = n % 256 ^ l := by
  induction l generalizing n with
  | zero => simp [natToBytes, bytesToNat, Nat.mod_one]
  | succ l ih =>
    have h1 : bytesToNat (natToBytes (l + 1) n) =
        bytesToNat (natToBytes l (n / 256)) * 256 + n % 256 := by
      rw [natToBytes]
      unfold bytesToNat
      rw [List.foldl_append, bytesToNat_aux]
      simp [bytesToNat]
    rw [h1, ih]
    rw [Nat.pow_succ, Nat.mul_comm (256 ^ l) 256, Nat.mod_mul]
    ring

theorem bytesToNat_natToBytes_of_lt (l n : Nat) (h : n < 256 ^ l) :
    bytesToNat (natToBytes l n) = n := by
  rw [bytesToNat_natToBytes, Nat.mod_eq_of_lt h]

/-- Modelled from the spec: the set of recognised ciphersuite tags (spec
§4.2: "an unrecognized tag is a fatal input error"; the test scenario uses
tag `0x01`). -/
def validCs (c : Byte) : Bool := c.val ≤ 1

/-- In-memory secret key of the cryptographic core: ciphersuite tag and
secret scalar (modelled from the spec; the core's `BLSSK` is outside
`src/`). -/
structure BLSSK where
  cs : Byte
  x : Nat
deriving DecidableEq

/-- In-memory public key: ciphersuite tag plus the group element
`x · g₁`, represented by its discrete logarithm. -/
structure BLSPK where
  cs : Byte
  y : Nat
deriving DecidableEq

/-- In-memory signature: ciphersuite tag plus the group element, represented
by its discrete logarithm. -/
structure BLSSIG where
  cs : Byte
  s : Nat
deriving DecidableEq

/-- Modelled from the spec: compressed serialization of a secret key
(`SerDes::serialize`, outside `src/`): ciphersuite byte then the scalar,
big-endian, 32 bytes. -/
def BLSSK.serialize (k : BLSSK) : List Byte := k.cs :: natToBytes 32 k.x

/-- Modelled from the spec: strict deserialization of a secret key
(`SerDes::deserialize`, outside `src/`): exact length, recognised
ciphersuite, canonical in-range scalar; anything else is a `DecodeError`
and no partial value is ever produced. -/
def BLSSK.deserialize (bs : List Byte) : Except String BLSSK :=
  match bs with
  | [] => .error "DecodeError: empty buffer"
  | c :: rest =>
    if rest.length = 32 ∧ validCs c = true ∧ bytesToNat rest < grpOrd then
      .ok ⟨c, bytesToNat rest⟩
    else .error "DecodeError: invalid secret key encoding"

/-- Modelled from the spec: compressed serialization of a public key:
ciphersuite byte then the group element, big-endian, 48 bytes. -/
def BLSPK.serialize (k : BLSPK) : List Byte := k.cs :: natToBytes 48 k.y

/-- Modelled from the spec: strict deserialization of a public key; length,
ciphersuite and subgroup-membership (canonical residue) checks, otherwise
`DecodeError`. -/
def BLSPK.deserialize (bs : List Byte) : Except String BLSPK :=
  match bs with
  | [] => .error "DecodeError: empty buffer"
  | c :: rest =>
    if rest.length = 48 ∧ validCs c = true ∧ bytesToNat rest < grpOrd then
      .ok ⟨c, bytesToNat rest⟩
    else .error "DecodeError: invalid public key encoding"

/-- Modelled from the spec: compressed serialization of a signature:
ciphersuite byte then the group element, big-endian, 96 bytes. -/
def BLSSIG.serialize (s : BLSSIG) : List Byte := s.cs :: natToBytes 96 s.s

/-- Modelled from the spec: strict deserialization of a signature; length,
ciphersuite and subgroup-membership (canonical residue) checks, otherwise
`DecodeError`. -/
def BLSSIG.deserialize (bs : List Byte) : Except String BLSSIG :=
  match bs with
  | [] => .error "DecodeError: empty buffer"
  | c :: rest =>
    if rest.length = 96 ∧ validCs c = true ∧ bytesToNat rest < grpOrd then
      .ok ⟨c, bytesToNat rest⟩
    else .error "DecodeError: invalid signature encoding"

/-- Modelled from the spec: a deterministic hash/key-derivation fold into the
scalar group, seeded with a domain-separation constant (spec §4.2: the
ciphersuite tag selects the domain-separation parameters). -/
def hashBytes (dom : Nat) (m : List Byte) : Nat :=
  m.foldl (fun a b => (a * 257 + b.val + 1) % grpOrd) (dom % grpOrd)

/-- Modelled from the spec: hash-to-curve of a message under a ciphersuite's
domain separation, as the discrete logarithm of the resulting point. -/
def hashMsg (cs : Byte) (m : List Byte) : Nat := hashBytes (cs.val + 2) m

/-- Modelled from the spec: deterministic derivation of the secret scalar
from the seed and ciphersuite tag (spec §4.2: no hidden randomness beyond
the seed). -/
def kdf (seed : List Byte) (cs : Byte) : Nat := hashBytes (cs.val + 1) seed

theorem hashBytes_lt (dom : Nat) (m : List Byte) : hashBytes dom m < grpOrd := by
  unfold hashBytes
  have gen : ∀ (l : List Byte) (a : Nat), a < grpOrd →
      l.foldl (fun a b => (a * 257 + b.val + 1) % grpOrd) a < grpOrd := by
    intro l
    induction l with
    | nil => intro a ha; simpa using ha
    | cons b t ih =>
      intro a _
      exact ih _ (Nat.mod_lt _ grpOrd_pos)
  exact gen m _ (Nat.mod_lt _ grpOrd_pos)

/-- Modelled from the spec: `BLSPKInG1::keygen` (outside `src/`).  Rejects a
seed shorter than 32 bytes and an unrecognised ciphersuite tag (spec §4.2);
otherwise derives the secret scalar deterministically and the public key as
the scalar multiple of the fixed generator (discrete logarithm `x`). -/
def BLSPKInG1.keygen (seed : List Byte) (cs : Byte) : Except String (BLSSK × BLSPK) :=
  if seed.length < 32 then .error "keygen: seed too short"
  else if validCs cs = true then
    let x := kdf seed cs
    .ok (⟨cs, x⟩, ⟨cs, x⟩)
  else .error "keygen: unrecognized ciphersuite"

/-- Modelled from the spec: `BLSPKInG1::sign` (outside `src/`): hash the
message into the signature group under the key's ciphersuite and multiply by
the secret scalar. -/
def BLSPKInG1.sign (k : BLSSK) (m : List Byte) : BLSSIG :=
  ⟨k.cs, k.x * hashMsg k.cs m % grpOrd⟩

/-- Modelled from the spec: `BLSPKInG1::verify` (outside `src/`): the
pairing equation holds exactly when the signature point equals the secret
scalar times the hashed message, i.e. `dlog sig = dlog pk * dlog H(m)`, under
a common ciphersuite (domain separation). -/
def BLSPKInG1.verify (k : BLSPK) (m : List Byte) (s : BLSSIG) : Bool :=
  decide (s.cs = k.cs) && decide (s.s = k.y * hashMsg k.cs m % grpOrd)

/-- Modulo-`grpOrd` sum of a list of residues (the signature/public-key
group operation folded over a list). -/
def sumMod (l : List Nat) : Nat := l.foldl (fun a b => (a + b) % grpOrd) 0

/-- Consistency check of the aggregation policy: all signatures carry the
same context (ciphersuite/time-stamp) tag. -/
def allSameCs : List BLSSIG → Bool
  | [] => true
  | s :: t => t.all fun u => decide (u.cs = s.cs)

/-- Modelled from the spec: `BLSPKInG1::aggregate_without_verify` (outside
`src/`).  Checks that all signatures are for the same context tag
(`AggregationError` otherwise), rejects the empty list (spec §4.5 requires
the zero-signature case to be explicitly defined; the model rejects it), and
otherwise sums the signature group elements without any validity check. -/
def BLSPKInG1.aggregate_without_verify (sigs : List BLSSIG) : Except String BLSSIG :=
  if h : sigs = [] then .error "AggregationError: empty signature list"
  else if allSameCs sigs = true then
    .ok ⟨(sigs.head h).cs, sumMod (sigs.map BLSSIG.s)⟩
  else .error "AggregationError: inconsistent time stamps"

/-- Modelled from the spec: `BLSPKInG1::verify_aggregated` (outside `src/`):
aggregate the public keys with the same group sum and evaluate one pairing
check of the aggregate signature against the combined key and the single
message (spec §4.6), under a common ciphersuite. -/
def BLSPKInG1.verify_aggregated (pks : List BLSPK) (m : List Byte) (s : BLSSIG) : Bool :=
  (pks.all fun k => decide (k.cs = s.cs)) &&
    decide (s.s = sumMod (pks.map BLSPK.y) * hashMsg s.cs m % grpOrd)

/-- Result of an FFI call: a returned value, a returned `Result::Err`
(recoverable), or a process abort (`panic!` / failed `assert!`, fatal). -/
inductive FfiResult (α : Type) where
  | ok : α → FfiResult α
  | err : String → FfiResult α
  | fatal : String → FfiResult α
deriving DecidableEq

/-- `true` exactly on the abort outcome. -/
def FfiResult.isFatal {α : Type} : FfiResult α → Bool
  | .fatal _ => true
  | _ => false

/-- `true` exactly on the returned-error outcome. -/
def FfiResult.isRecoverable {α : Type} : FfiResult α → Bool
  | .err _ => true
  | _ => false

/-- `true` exactly on the error outcome of an `Except`. -/
def isDecodeFail {α : Type} : Except String α → Bool
  | .error _ => true
  | _ => false

instance {ε α : Type} [DecidableEq ε] [DecidableEq α] : DecidableEq (Except ε α) :=
  fun x y =>
    match x, y with
    | .error a, .error b =>
      if h : a = b then .isTrue (h ▸ rfl) else .isFalse fun hh => h (Except.error.inj hh)
    | .ok a, .ok b =>
      if h : a = b then .isTrue (h ▸ rfl) else .isFalse fun hh => h (Except.ok.inj hh)
    | .error _, .ok _ => .isFalse fun hh => Except.noConfusion hh
    | .ok _, .error _ => .isFalse fun hh => Except.noConfusion hh

/-- C wrapper of a secret key (`bls_sk`): a fixed-size opaque byte
container. -/
structure bls_sk where
  data : List Byte
deriving DecidableEq

/-- C wrapper of a public key (`bls_pk`). -/
structure bls_pk where
  data : List Byte
deriving DecidableEq

/-- C wrapper of a signature (`bls_sig`). -/
structure bls_sig where
  data : List Byte
deriving DecidableEq

/-- C wrapper holding the output of key generation (`bls_keys`). -/
structure bls_keys where
  pk : bls_pk
  sk : bls_sk
deriving DecidableEq

/-- Hexadecimal digits used by the `Debug` formatting (`write!("{:02x}", e)`
produces two lowercase hex digits per byte). -/
def hexDigit (n : Nat) : Char :=
  [Char.ofNat 48, Char.ofNat 49, Char.ofNat 50, Char.ofNat 51, Char.ofNat 52,
   Char.ofNat 53, Char.ofNat 54, Char.ofNat 55, Char.ofNat 56, Char.ofNat 57,
   Char.ofNat 97, Char.ofNat 98, Char.ofNat 99, Char.ofNat 100, Char.ofNat 101,
   Char.ofNat 102].getD n (Char.ofNat 48)

/-- Two-hex-digit rendering of one byte, as in `{:02x}`. -/
def hexByte (b : Byte) : List Char := [hexDigit (b.val / 16), hexDigit (b.val % 16)]

/-- The character stream produced by the `Debug` loops of `ffi.rs`: for each
byte, `write!(f, "{:02x}, ", e)`, followed by the final `writeln!(f)`. -/
def debugFmt : List Byte → List Char
  | [] => [Char.ofNat 10]
  | b :: t => hexByte b ++ [Char.ofNat 44, Char.ofNat 32] ++ debugFmt t

/-- `impl Debug for bls_sk` (ffi.rs lines 19–26). -/
def bls_sk.fmt (k : bls_sk) : String := ⟨debugFmt k.data⟩

/-- `impl Debug for bls_pk` (ffi.rs lines 36–43). -/
def bls_pk.fmt (k : bls_pk) : String := ⟨debugFmt k.data⟩

/-- `impl Debug for bls_sig` (ffi.rs lines 61–68). -/
def bls_sig.fmt (s : bls_sig) : String := ⟨debugFmt s.data⟩

/-- `c_keygen` (ffi.rs lines 75–109): borrow the seed bytes, run the core
key generation, serialize both keys into the fixed-size output struct.  The
core's rejection of a bad seed or ciphersuite surfaces as the fatal abort
signal, since the C signature returns `bls_keys` with no error channel. -/
def c_keygen (seed : List Byte) (ciphersuite : Byte) : FfiResult bls_keys :=
  match BLSPKInG1.keygen seed ciphersuite with
  | .error e => .fatal e
  | .ok (sk, pk) => .ok ⟨⟨pk.serialize⟩, ⟨sk.serialize⟩⟩

/-- `c_sign` (ffi.rs lines 114–138): deserialize the secret key — a failure
is a `panic!` (fatal) — then sign and serialize the signature. -/
def c_sign (sk : bls_sk) (msg : List Byte) : FfiResult bls_sig :=
  match BLSSK.deserialize sk.data with
  | .error e => .fatal ("C wrapper error: signing function: deserialize sk: " ++ e)
  | .ok k => .ok ⟨(BLSPKInG1.sign k msg).serialize⟩

/-- `c_verify` (ffi.rs lines 143–173): deserialize the public key, then the
signature — each failure is a `panic!` (fatal) — then return the boolean
verdict of the core verification. -/
def c_verify (pk : bls_pk) (msg : List Byte) (sig : bls_sig) : FfiResult Bool :=
  match BLSPK.deserialize pk.data with
  | .error e =>
    .fatal ("C wrapper error: verification function: deserialize pk: " ++ e)
  | .ok k =>
    match BLSSIG.deserialize sig.data with
    | .error e =>
      .fatal ("C wrapper error: verification function: deserialize signature: " ++ e)
    | .ok s => .ok (BLSPKInG1.verify k msg s)

/-- The decode loop of `c_aggregation` (ffi.rs lines 184–195): deserialize
each signature in order, stopping at the first failure. -/
def decodeSigs : List bls_sig → Except String (List BLSSIG)
  | [] => .ok []
  | sg :: t =>
    match BLSSIG.deserialize sg.data with
    | .error e => .error e
    | .ok s =>
      match decodeSigs t with
      | .error e => .error e
      | .ok l => .ok (s :: l)

/-- `c_aggregation` (ffi.rs lines 179–209): decode every signature — a
failure is a `panic!` (fatal) — then aggregate; the aggregation error is
propagated with `?` as an ordinary returned `Result::Err`. -/
def c_aggregation (sig_list : List bls_sig) : FfiResult bls_sig :=
  match decodeSigs sig_list with
  | .error e =>
    .fatal ("C wrapper error: signature aggregation function: deserialize signature: " ++ e)
  | .ok sigs =>
    match BLSPKInG1.aggregate_without_verify sigs with
    | .error e => .err e
    | .ok agg => .ok ⟨agg.serialize⟩

/-- The decode loop of `c_verify_agg` (ffi.rs lines 223–234): deserialize
each public key in order, stopping at the first failure. -/
def decodePks : List bls_pk → Except String (List BLSPK)
  | [] => .ok []
  | p :: t =>
    match BLSPK.deserialize p.data with
    | .error e => .error e
    | .ok k =>
      match decodePks t with
      | .error e => .error e
      | .ok l => .ok (k :: l)

/-- `c_verify_agg` (ffi.rs lines 213–249): decode every public key, then the
aggregate signature — each failure is a `panic!` (fatal) — then return the
boolean verdict of the aggregated verification. -/
def c_verify_agg (pk_list : List bls_pk) (msg : List Byte) (agg_sig : bls_sig) :
    FfiResult Bool :=
  match decodePks pk_list with
  | .error e =>
    .fatal ("C wrapper error: signature aggregation function: deserialize signature: " ++ e)
  | .ok pks =>
    match BLSSIG.deserialize agg_sig.data with
    | .error e =>
      .fatal ("C wrapper error: verification function: deserialize signature: " ++ e)
    | .ok s => .ok (BLSPKInG1.verify_aggregated pks msg s)

theorem grpOrd_lt_pow48 : grpOrd < 256 ^ 48 :=
  lt_trans grpOrd_lt_pow32 (Nat.pow_lt_pow_right (by decide) (by decide))

theorem grpOrd_lt_pow96 : grpOrd < 256 ^ 96 :=
  lt_trans grpOrd_lt_pow32 (Nat.pow_lt_pow_right (by decide) (by decide))

theorem sk_deserialize_serialize (k : BLSSK) (hcs : validCs k.cs = true)
    (hx : k.x < grpOrd) : BLSSK.deserialize k.serialize = .ok k := by
  have hval : bytesToNat (natToBytes 32 k.x) = k.x :=
    bytesToNat_natToBytes_of_lt _ _ (lt_trans hx grpOrd_lt_pow32)
  simp only [BLSSK.serialize, BLSSK.deserialize]
  rw [if_pos ⟨natToBytes_length _ _, hcs, by rw [hval]; exact hx⟩, hval]

theorem pk_deserialize_serialize (k : BLSPK) (hcs : validCs k.cs = true)
    (hy : k.y < grpOrd) : BLSPK.deserialize k.serialize = .ok k := by
  have hval : bytesToNat (natToBytes 48 k.y) = k.y :=
    bytesToNat_natToBytes_of_lt _ _ (lt_trans hy grpOrd_lt_pow48)
  simp only [BLSPK.serialize, BLSPK.deserialize]
  rw [if_pos ⟨natToBytes_length _ _, hcs, by rw [hval]; exact hy⟩, hval]

theorem sig_deserialize_serialize (s : BLSSIG) (hcs : validCs s.cs = true)
    (hs : s.s < grpOrd) : BLSSIG.deserialize s.serialize = .ok s := by
  have hval : bytesToNat (natToBytes 96 s.s) = s.s :=
    bytesToNat_natToBytes_of_lt _ _ (lt_trans hs grpOrd_lt_pow96)
  simp only [BLSSIG.serialize, BLSSIG.deserialize]
  rw [if_pos ⟨natToBytes_length _ _, hcs, by rw [hval]; exact hs⟩, hval]

theorem c_keygen_ok (seed : List Byte) (cs : Byte) (hseed : 32 ≤ seed.length)
    (hcs : validCs cs = true) :
    c_keygen seed cs =
      .ok ⟨⟨BLSPK.serialize ⟨cs, kdf seed cs⟩⟩, ⟨BLSSK.serialize ⟨cs, kdf seed cs⟩⟩⟩ := by
  unfold c_keygen BLSPKInG1.keygen
  rw [if_neg (by omega), if_pos hcs]

theorem c_sign_serialized (cs : Byte) (x : Nat) (m : List Byte)
    (hcs : validCs cs = true) (hx : x < grpOrd) :
    c_sign ⟨BLSSK.serialize ⟨cs, x⟩⟩ m =
      .ok ⟨(BLSPKInG1.sign ⟨cs, x⟩ m).serialize⟩ := by
  unfold c_sign
  rw [show (⟨BLSSK.serialize ⟨cs, x⟩⟩ : bls_sk).data = BLSSK.serialize ⟨cs, x⟩ from rfl,
    sk_deserialize_serialize _ hcs hx]

theorem c_verify_serialized (cs : Byte) (x : Nat) (m : List Byte)
    (hcs : validCs cs = true) (hx : x < grpOrd) :
    c_verify ⟨BLSPK.serialize ⟨cs, x⟩⟩ m
      ⟨(BLSPKInG1.sign ⟨cs, x⟩ m).serialize⟩ = .ok true := by
  have hsiglt : x * hashMsg cs m % grpOrd < grpOrd := Nat.mod_lt _ grpOrd_pos
  unfold c_verify
  rw [show (⟨BLSPK.serialize ⟨cs, x⟩⟩ : bls_pk).data = BLSPK.serialize ⟨cs, x⟩ from rfl,
    pk_deserialize_serialize _ hcs hx]
  rw [show (⟨(BLSPKInG1.sign ⟨cs, x⟩ m).serialize⟩ : bls_sig).data =
      (BLSPKInG1.sign ⟨cs, x⟩ m).serialize from rfl,
    sig_deserialize_serialize _ hcs hsiglt]
  simp [BLSPKInG1.verify, BLSPKInG1.sign]

/-- C1: for every key pair produced by `c_keygen` (any seed of at least 32
bytes and recognised ciphersuite) and every message, the signature produced
by `c_sign` is accepted by `c_verify`. -/
theorem sign_verify_correct (seed : List Byte) (cs : Byte) (m : List Byte)
    (hseed : 32 ≤ seed.length) (hcs : validCs cs = true) :
    ∃ (keys : bls_keys) (sg : bls_sig),
      c_keygen seed cs = .ok keys ∧ c_sign keys.sk m = .ok sg ∧
        c_verify keys.pk m sg = .ok true := by
  have hx : kdf seed cs < grpOrd := hashBytes_lt _ _
  exact ⟨⟨⟨BLSPK.serialize ⟨cs, kdf seed cs⟩⟩, ⟨BLSSK.serialize ⟨cs, kdf seed cs⟩⟩⟩,
    ⟨(BLSPKInG1.sign ⟨cs, kdf seed cs⟩ m).serialize⟩,
    c_keygen_ok seed cs hseed hcs,
    c_sign_serialized cs (kdf seed cs) m hcs hx,
    c_verify_serialized cs (kdf seed cs) m hcs hx⟩

/-- C1 witness: the correctness theorem instantiated at the all-zero 32-byte
seed, ciphersuite `0x01` and the message `"hello"`. -/
theorem sign_verify_correct_witness :
    (32 ≤ (List.replicate 32 (0 : Byte)).length ∧ validCs 1 = true) ∧
      ∃ (keys : bls_keys) (sg : bls_sig),
        c_keygen (List.replicate 32 (0 : Byte)) 1 = .ok keys ∧
          c_sign keys.sk [104, 101, 108, 108, 111] = .ok sg ∧
            c_verify keys.pk [104, 101, 108, 108, 111] sg = .ok true :=
  ⟨⟨by decide, by decide⟩,
    sign_verify_correct (List.replicate 32 0) 1 [104, 101, 108, 108, 111]
      (by decide) (by decide)⟩

theorem sumMod_lt (l : List Nat) : sumMod l < grpOrd := by
  unfold sumMod
  have gen : ∀ (t : List Nat) (a : Nat), a < grpOrd →
      t.foldl (fun a b => (a + b) % grpOrd) a < grpOrd := by
    intro t
    induction t with
    | nil => intro a ha; simpa using ha
    | cons b u ih => intro a _; exact ih _ (Nat.mod_lt _ grpOrd_pos)
  exact gen l 0 grpOrd_pos

theorem sumMod_eq (l : List Nat) : sumMod l = l.sum % grpOrd := by
  have gen : ∀ (t : List Nat) (a : Nat),
      t.foldl (fun a b => (a + b) % grpOrd) (a % grpOrd) = (a + t.sum) % grpOrd := by
    intro t
    induction t with
    | nil => intro a; simp
    | cons b u ih =>
      intro a
      rw [List.foldl_cons, Nat.mod_add_mod, ih, List.sum_cons]
      ring_nf
  have h0 : (0 : Nat) % grpOrd = 0 := Nat.zero_mod _
  unfold sumMod
  rw [← h0, gen, Nat.zero_add]

theorem sum_map_mulmod (l : List Nat) (H : Nat) :
    (l.map fun x => x * H % grpOrd).sum % grpOrd = l.sum * H % grpOrd := by
  induction l with
  | nil => simp
  | cons x t ih =>
    rw [List.map_cons, List.sum_cons, List.sum_cons, Nat.add_mod, ih,
      Nat.mod_mod_of_dvd _ dvd_rfl, ← Nat.add_mod, Nat.add_mul]

theorem sumMod_map_mulmod (l : List Nat) (H : Nat) :
    sumMod (l.map fun x => x * H % grpOrd) = sumMod l * H % grpOrd := by
  rw [sumMod_eq, sumMod_eq, sum_map_mulmod, Nat.mod_mul_mod]

theorem decodeSigs_roundtrip (l : List BLSSIG)
    (h : ∀ s ∈ l, BLSSIG.deserialize s.serialize = .ok s) :
    decodeSigs (l.map fun s => ⟨s.serialize⟩) = .ok l := by
  induction l with
  | nil => rfl
  | cons s t ih =>
    rw [List.map_cons]
    unfold decodeSigs
    rw [show (⟨s.serialize⟩ : bls_sig).data = s.serialize from rfl,
      h s (List.mem_cons_self s t), ih fun u hu => h u (List.mem_cons_of_mem s hu)]

theorem decodePks_roundtrip (l : List BLSPK)
    (h : ∀ k ∈ l, BLSPK.deserialize k.serialize = .ok k) :
    decodePks (l.map fun k => ⟨k.serialize⟩) = .ok l := by
  induction l with
  | nil => rfl
  | cons k t ih =>
    rw [List.map_cons]
    unfold decodePks
    rw [show (⟨k.serialize⟩ : bls_pk).data = k.serialize from rfl,
      h k (List.mem_cons_self k t), ih fun u hu => h u (List.mem_cons_of_mem k hu)]

/-- The key pair returned by a successful `c_keygen` call (placeholder value
on failure, used only to state list-level properties of keygen-produced
signers). -/
def keygenOut (seed : List Byte) (cs : Byte) : bls_keys :=
  match c_keygen seed cs with
  | .ok k => k
  | _ => ⟨⟨[]⟩, ⟨[]⟩⟩

/-- The signature returned by a successful `c_sign` call (placeholder value
on failure). -/
def signOut (sk : bls_sk) (m : List Byte) : bls_sig :=
  match c_sign sk m with
  | .ok s => s
  | _ => ⟨[]⟩

theorem keygenOut_eq (seed : List Byte) (cs : Byte) (hseed : 32 ≤ seed.length)
    (hcs : validCs cs = true) :
    keygenOut seed cs =
      ⟨⟨BLSPK.serialize ⟨cs, kdf seed cs⟩⟩, ⟨BLSSK.serialize ⟨cs, kdf seed cs⟩⟩⟩ := by
  unfold keygenOut
  rw [c_keygen_ok seed cs hseed hcs]

theorem signOut_eq (seed : List Byte) (cs : Byte) (m : List Byte)
    (hseed : 32 ≤ seed.length) (hcs : validCs cs = true) :
    signOut (keygenOut seed cs).sk m =
      ⟨(BLSPKInG1.sign ⟨cs, kdf seed cs⟩ m).serialize⟩ := by
  rw [keygenOut_eq seed cs hseed hcs]
  unfold signOut
  rw [show (⟨⟨BLSPK.serialize ⟨cs, kdf seed cs⟩⟩, ⟨BLSSK.serialize ⟨cs, kdf seed cs⟩⟩⟩ :
      bls_keys).sk = ⟨BLSSK.serialize ⟨cs, kdf seed cs⟩⟩ from rfl,
    c_sign_serialized cs (kdf seed cs) m hcs (hashBytes_lt _ _)]

/-- C2: signers with key pairs produced by `c_keygen` (seeds of at least 32
bytes, one recognised ciphersuite) all sign the same message with `c_sign`;
`c_aggregation` of their signatures succeeds and the aggregate verifies with
`c_verify_agg` against the list of all their public keys. -/
theorem agg_sign_verify_correct (seeds : List (List Byte)) (cs : Byte) (m : List Byte)
    (hne : seeds ≠ []) (hlen : ∀ sd ∈ seeds, 32 ≤ sd.length)
    (hcs : validCs cs = true) :
    (∀ sd ∈ seeds, c_keygen sd cs = .ok (keygenOut sd cs) ∧
        c_sign (keygenOut sd cs).sk m = .ok (signOut (keygenOut sd cs).sk m)) ∧
      ∃ agg : bls_sig,
        c_aggregation (seeds.map fun sd => signOut (keygenOut sd cs).sk m) = .ok agg ∧
          c_verify_agg (seeds.map fun sd => (keygenOut sd cs).pk) m agg = .ok true := by
  have H := hashMsg cs m
  constructor
  · intro sd hsd
    refine ⟨?_, ?_⟩
    · rw [keygenOut_eq sd cs (hlen sd hsd) hcs]
      exact c_keygen_ok sd cs (hlen sd hsd) hcs
    · rw [signOut_eq sd cs m (hlen sd hsd) hcs, keygenOut_eq sd cs (hlen sd hsd) hcs]
      exact c_sign_serialized cs (kdf sd cs) m hcs (hashBytes_lt _ _)
  · -- the individual signatures, as core values
    have hsigs : (seeds.map fun sd => signOut (keygenOut sd cs).sk m) =
        (seeds.map fun sd => BLSPKInG1.sign ⟨cs, kdf sd cs⟩ m).map
          fun s => (⟨s.serialize⟩ : bls_sig) := by
      rw [List.map_map]
      exact List.map_congr_left fun sd hsd => signOut_eq sd cs m (hlen sd hsd) hcs
    have hdec : decodeSigs ((seeds.map fun sd => BLSPKInG1.sign ⟨cs, kdf sd cs⟩ m).map
        fun s => (⟨s.serialize⟩ : bls_sig)) =
          .ok (seeds.map fun sd => BLSPKInG1.sign ⟨cs, kdf sd cs⟩ m) := by
      refine decodeSigs_roundtrip _ fun s hs => ?_
      obtain ⟨sd, _, rfl⟩ := List.mem_map.1 hs
      exact sig_deserialize_serialize _ hcs (Nat.mod_lt _ grpOrd_pos)
    have hmapne : (seeds.map fun sd => BLSPKInG1.sign ⟨cs, kdf sd cs⟩ m) ≠ [] := by
      simpa using hne
    have hall : allSameCs (seeds.map fun sd => BLSPKInG1.sign ⟨cs, kdf sd cs⟩ m) =
        true := by
      obtain ⟨s0, t0, rfl⟩ : ∃ s0 t0, seeds = s0 :: t0 := by
        cases seeds with
        | nil => exact absurd rfl hne
        | cons a t => exact ⟨a, t, rfl⟩
      rw [List.map_cons]
      unfold allSameCs
      rw [List.all_eq_true]
      intro u hu
      obtain ⟨sd, _, rfl⟩ := List.mem_map.1 hu
      simp [BLSPKInG1.sign]
    have hhead : ((seeds.map fun sd => BLSPKInG1.sign ⟨cs, kdf sd cs⟩ m).head
        hmapne).cs = cs := by
      obtain ⟨s0, t0, rfl⟩ : ∃ s0 t0, seeds = s0 :: t0 := by
        cases seeds with
        | nil => exact absurd rfl hne
        | cons a t => exact ⟨a, t, rfl⟩
      rfl
    have hagg : BLSPKInG1.aggregate_without_verify
        (seeds.map fun sd => BLSPKInG1.sign ⟨cs, kdf sd cs⟩ m) =
          .ok ⟨cs, sumMod (seeds.map fun sd => kdf sd cs * hashMsg cs m % grpOrd)⟩ := by
      unfold BLSPKInG1.aggregate_without_verify
      rw [dif_neg hmapne, if_pos hall, List.map_map]
      exact congrArg Except.ok (by rw [BLSSIG.mk.injEq]; exact ⟨hhead, rfl⟩)
    refine ⟨⟨BLSSIG.serialize ⟨cs,
      sumMod (seeds.map fun sd => kdf sd cs * hashMsg cs m % grpOrd)⟩⟩, ?_, ?_⟩
    · unfold c_aggregation
      rw [hsigs]
      simp only [hdec, hagg]
    · -- verification of the aggregate
      have hpks : (seeds.map fun sd => (keygenOut sd cs).pk) =
          (seeds.map fun sd => (⟨cs, kdf sd cs⟩ : BLSPK)).map
            fun k => (⟨k.serialize⟩ : bls_pk) := by
        rw [List.map_map]
        refine List.map_congr_left fun sd hsd => ?_
        rw [keygenOut_eq sd cs (hlen sd hsd) hcs]
        rfl
      have hdecp : decodePks ((seeds.map fun sd => (⟨cs, kdf sd cs⟩ : BLSPK)).map
          fun k => (⟨k.serialize⟩ : bls_pk)) =
            .ok (seeds.map fun sd => (⟨cs, kdf sd cs⟩ : BLSPK)) := by
        refine decodePks_roundtrip _ fun k hk => ?_
        obtain ⟨sd, _, rfl⟩ := List.mem_map.1 hk
        exact pk_deserialize_serialize _ hcs (hashBytes_lt _ _)
      have hsigdec : BLSSIG.deserialize (⟨BLSSIG.serialize ⟨cs,
          sumMod (seeds.map fun sd => kdf sd cs * hashMsg cs m % grpOrd)⟩⟩ :
            bls_sig).data = .ok ⟨cs,
          sumMod (seeds.map fun sd => kdf sd cs * hashMsg cs m % grpOrd)⟩ :=
        sig_deserialize_serialize _ hcs (sumMod_lt _)
      unfold c_verify_agg
      rw [hpks]
      simp only [hdecp, hsigdec]
      unfold BLSPKInG1.verify_aggregated
      have h1 : ((seeds.map fun sd => (⟨cs, kdf sd cs⟩ : BLSPK)).all
          fun k => decide (k.cs = (⟨cs, sumMod (seeds.map
            fun sd => kdf sd cs * hashMsg cs m % grpOrd)⟩ : BLSSIG).cs)) = true := by
        rw [List.all_eq_true]
        intro k hk
        obtain ⟨sd, _, rfl⟩ := List.mem_map.1 hk
        simp
      have h2 : sumMod (seeds.map fun sd => kdf sd cs * hashMsg cs m % grpOrd) =
          sumMod ((seeds.map fun sd => (⟨cs, kdf sd cs⟩ : BLSPK)).map BLSPK.y) *
            hashMsg cs m % grpOrd := by
        rw [List.map_map]
        have h3 : (seeds.map fun sd => kdf sd cs * hashMsg cs m % grpOrd) =
            (seeds.map fun sd => kdf sd cs).map
              fun x => x * hashMsg cs m % grpOrd := by
          rw [List.map_map]
          rfl
        rw [h3, sumMod_map_mulmod]
        rfl
      rw [h1]
      simp only [Bool.true_and, decide_eq_true_eq]
      exact congrArg FfiResult.ok (by simp only [decide_eq_true_eq]; exact h2)

/-- C2 witness: two signers with distinct 32-byte seeds, ciphersuite `0x01`,
both signing `"hello"`; aggregation succeeds and the aggregate verifies
against both public keys. -/
theorem agg_sign_verify_correct_witness :
    (([List.replicate 32 (0 : Byte), List.replicate 31 (0 : Byte) ++ [1]] :
        List (List Byte)) ≠ [] ∧
      (∀ sd ∈ ([List.replicate 32 (0 : Byte), List.replicate 31 (0 : Byte) ++ [1]] :
        List (List Byte)), 32 ≤ sd.length) ∧ validCs 1 = true) ∧
    ((∀ sd ∈ ([List.replicate 32 (0 : Byte), List.replicate 31 (0 : Byte) ++ [1]] :
        List (List Byte)),
        c_keygen sd 1 = .ok (keygenOut sd 1) ∧
          c_sign (keygenOut sd 1).sk [104, 101, 108, 108, 111] =
            .ok (signOut (keygenOut sd 1).sk [104, 101, 108, 108, 111])) ∧
      ∃ agg : bls_sig,
        c_aggregation (([List.replicate 32 (0 : Byte),
            List.replicate 31 (0 : Byte) ++ [1]] : List (List Byte)).map
          fun sd => signOut (keygenOut sd 1).sk [104, 101, 108, 108, 111]) = .ok agg ∧
          c_verify_agg (([List.replicate 32 (0 : Byte),
              List.replicate 31 (0 : Byte) ++ [1]] : List (List Byte)).map
            fun sd => (keygenOut sd 1).pk) [104, 101, 108, 108, 111] agg = .ok true) :=
  ⟨⟨by decide, by decide, by decide⟩,
    agg_sign_verify_correct
      [List.replicate 32 0, List.replicate 31 0 ++ [1]] 1 [104, 101, 108, 108, 111]
      (by decide) (by decide) (by decide)⟩

/-- C3 counterexample: a secret-key buffer of the right length whose scalar
lies outside the valid subgroup range makes `c_sign` abort (`panic!` at
ffi.rs line 123) instead of returning a `DecodeError` value, and a
wrong-length signature buffer makes `c_verify` abort likewise (ffi.rs line
167) — so the consuming operations do not "report a boundary error value
and never panic" as the claim states. -/
theorem decode_fail_cex :
    (c_sign ⟨(0 : Byte) :: List.replicate 32 (255 : Byte)⟩ []).isFatal = true ∧
      (c_sign ⟨(0 : Byte) :: List.replicate 32 (255 : Byte)⟩ []).isRecoverable = false ∧
        (c_verify ⟨BLSPK.serialize ⟨0, 0⟩⟩ [] ⟨[]⟩).isFatal = true := by
  decide

/-- C3 (amended): the decode step itself rejects a wrong-length buffer or an
out-of-subgroup element with a `DecodeError` value and never yields a
partially-decoded element, but each consuming operation (`c_sign`,
`c_verify`, `c_aggregation`, `c_verify_agg`) reports such a failure by
aborting (a `panic!`), not by returning the error value to the caller. -/
theorem decode_reject_ops_abort :
    (∀ bs : List Byte, bs.length ≠ SK_LEN → isDecodeFail (BLSSK.deserialize bs) = true) ∧
    (∀ bs : List Byte, bs.length ≠ PK_LEN → isDecodeFail (BLSPK.deserialize bs) = true) ∧
    (∀ bs : List Byte, bs.length ≠ SIG_LEN → isDecodeFail (BLSSIG.deserialize bs) = true) ∧
    (∀ (c : Byte) (rest : List Byte), ¬ bytesToNat rest < grpOrd →
      isDecodeFail (BLSSIG.deserialize (c :: rest)) = true) ∧
    (∀ (sk : bls_sk) (m : List Byte), isDecodeFail (BLSSK.deserialize sk.data) = true →
      (c_sign sk m).isFatal = true) ∧
    (∀ (pk : bls_pk) (m : List Byte) (sg : bls_sig),
      isDecodeFail (BLSPK.deserialize pk.data) = true →
        (c_verify pk m sg).isFatal = true) ∧
    (∀ (pk : bls_pk) (m : List Byte) (sg : bls_sig),
      isDecodeFail (BLSSIG.deserialize sg.data) = true →
        (c_verify pk m sg).isFatal = true) ∧
    (∀ l : List bls_sig, isDecodeFail (decodeSigs l) = true →
      (c_aggregation l).isFatal = true) ∧
    (∀ (pl : List bls_pk) (m : List Byte) (sg : bls_sig),
      isDecodeFail (decodePks pl) = true → (c_verify_agg pl m sg).isFatal = true) ∧
    (∀ (pl : List bls_pk) (m : List Byte) (sg : bls_sig),
      isDecodeFail (BLSSIG.deserialize sg.data) = true →
        (c_verify_agg pl m sg).isFatal = true) := by
  refine ⟨?_, ?_, ?_, ?_, ?_, ?_, ?_, ?_, ?_, ?_⟩
  · intro bs h
    cases bs with
    | nil => rfl
    | cons c rest =>
      simp only [BLSSK.deserialize]
      rw [if_neg ?_]
      · rfl
      · rintro ⟨h32, -⟩
        exact h (by simp [SK_LEN, h32])
  · intro bs h
    cases bs with
    | nil => rfl
    | cons c rest =>
      simp only [BLSPK.deserialize]
      rw [if_neg ?_]
      · rfl
      · rintro ⟨h48, -⟩
        exact h (by simp [PK_LEN, h48])
  · intro bs h
    cases bs with
    | nil => rfl
    | cons c rest =>
      simp only [BLSSIG.deserialize]
      rw [if_neg ?_]
      · rfl
      · rintro ⟨h96, -⟩
        exact h (by simp [SIG_LEN, h96])
  · intro c rest h
    simp only [BLSSIG.deserialize]
    rw [if_neg ?_]
    · rfl
    · rintro ⟨-, -, hlt⟩
      exact h hlt
  · intro sk m h
    unfold c_sign
    cases hd : BLSSK.deserialize sk.data with
    | error e => rfl
    | ok k => rw [hd] at h; simp [isDecodeFail] at h
  · intro pk m sg h
    unfold c_verify
    cases hd : BLSPK.deserialize pk.data with
    | error e => rfl
    | ok k => rw [hd] at h; simp [isDecodeFail] at h
  · intro pk m sg h
    unfold c_verify
    cases hd : BLSPK.deserialize pk.data with
    | error e => rfl
    | ok k =>
      cases hs : BLSSIG.deserialize sg.data with
      | error e => rfl
      | ok s => rw [hs] at h; simp [isDecodeFail] at h
  · intro l h
    unfold c_aggregation
    cases hd : decodeSigs l with
    | error e => rfl
    | ok sigs => rw [hd] at h; simp [isDecodeFail] at h
  · intro pl m sg h
    unfold c_verify_agg
    cases hd : decodePks pl with
    | error e => rfl
    | ok pks => rw [hd] at h; simp [isDecodeFail] at h
  · intro pl m sg h
    unfold c_verify_agg
    cases hd : decodePks pl with
    | error e => rfl
    | ok pks =>
      cases hs : BLSSIG.deserialize sg.data with
      | error e => rfl
      | ok s => rw [hs] at h; simp [isDecodeFail] at h

/-- C3 amended-claim witness: each conjunct applied at a concrete input. -/
theorem decode_reject_ops_abort_witness :
    isDecodeFail (BLSSK.deserialize []) = true ∧
      isDecodeFail (BLSPK.deserialize []) = true ∧
        isDecodeFail (BLSSIG.deserialize []) = true ∧
          isDecodeFail (BLSSIG.deserialize ((0 : Byte) ::
            List.replicate 96 (255 : Byte))) = true ∧
            (c_sign ⟨[]⟩ []).isFatal = true ∧
              (c_verify ⟨[]⟩ [] ⟨[]⟩).isFatal = true ∧
                (c_verify ⟨BLSPK.serialize ⟨0, 0⟩⟩ [] ⟨[]⟩).isFatal = true ∧
                  (c_aggregation [⟨[]⟩]).isFatal = true ∧
                    (c_verify_agg [⟨[]⟩] [] ⟨[]⟩).isFatal = true ∧
                      (c_verify_agg [] [] ⟨[]⟩).isFatal = true := by
  obtain ⟨h1, h2, h3, h4, h5, h6, h7, h8, h9, h10⟩ := decode_reject_ops_abort
  exact ⟨h1 [] (by decide), h2 [] (by decide), h3 [] (by decide),
    h4 0 (List.replicate 96 255) (by decide), h5 ⟨[]⟩ [] (by decide),
    h6 ⟨[]⟩ [] ⟨[]⟩ (by decide), h7 ⟨BLSPK.serialize ⟨0, 0⟩⟩ [] ⟨[]⟩ (by decide),
    h8 [⟨[]⟩] (by decide), h9 [⟨[]⟩] [] ⟨[]⟩ (by decide),
    h10 [] [] ⟨[]⟩ (by decide)⟩

/-- C4: when every input buffer decodes successfully but the decoded
signatures carry inconsistent context (time-stamp/ciphersuite) tags,
`c_aggregation` returns the aggregation failure as an ordinary `Result`
error value (the `?` at ffi.rs line 196), not a fatal abort. -/
theorem aggregation_inconsistent (bufs : List bls_sig) (sigs : List BLSSIG)
    (hd : decodeSigs bufs = .ok sigs) (hmix : allSameCs sigs = false) :
    c_aggregation bufs = .err "AggregationError: inconsistent time stamps" := by
  have hne : sigs ≠ [] := by
    rintro rfl
    simp [allSameCs] at hmix
  have hagg : BLSPKInG1.aggregate_without_verify sigs =
      .error "AggregationError: inconsistent time stamps" := by
    unfold BLSPKInG1.aggregate_without_verify
    rw [dif_neg hne, if_neg (by simp [hmix])]
  unfold c_aggregation
  simp only [hd, hagg]

/-- C4 witness: two well-formed signatures tagged with ciphersuites 0 and 1;
aggregation returns the recoverable error. -/
theorem aggregation_inconsistent_witness :
    decodeSigs [⟨BLSSIG.serialize ⟨0, 0⟩⟩, ⟨BLSSIG.serialize ⟨1, 0⟩⟩] =
        .ok [⟨0, 0⟩, ⟨1, 0⟩] ∧
      allSameCs [⟨0, 0⟩, ⟨1, 0⟩] = false ∧
        c_aggregation [⟨BLSSIG.serialize ⟨0, 0⟩⟩, ⟨BLSSIG.serialize ⟨1, 0⟩⟩] =
          .err "AggregationError: inconsistent time stamps" :=
  ⟨by decide, by decide,
    aggregation_inconsistent [⟨BLSSIG.serialize ⟨0, 0⟩⟩, ⟨BLSSIG.serialize ⟨1, 0⟩⟩]
      [⟨0, 0⟩, ⟨1, 0⟩] (by decide) (by decide)⟩

/-- 32-byte all-zero seed used by the C6 instances. -/
def flipSeed : List Byte := List.replicate 32 0

/-- The message `"hello"` used by the C6 instances. -/
def flipMsg : List Byte := [104, 101, 108, 108, 111]

/-- The public-key buffer `c_keygen flipSeed 0x01` produces. -/
def flipPk : bls_pk := ⟨BLSPK.serialize ⟨1, kdf flipSeed 1⟩⟩

/-- The signature buffer `c_sign` produces for `flipSeed`'s key on
`flipMsg`. -/
def flipSig : bls_sig := ⟨(BLSPKInG1.sign ⟨1, kdf flipSeed 1⟩ flipMsg).serialize⟩

/-- `flipSig` with the single byte at index 1 bit-flipped (it was `0x00`,
it becomes `0x80`). -/
def flipSigBad : bls_sig := ⟨flipSig.data.set 1 128⟩

/-- C6 counterexample: `flipSig` is a valid signature for `(flipPk,
flipMsg)`, and flipping the top bit of its byte at index 1 (a single-byte
flip: that byte is `0x00` in `flipSig` and `0x80` in `flipSigBad`, same
length) pushes the encoded element out of the valid subgroup range, so
`c_verify` aborts on the decode (`panic!` at ffi.rs line 167) instead of
returning the boolean `false` the claim promises for every single-byte
flip. -/
theorem verify_flip_cex :
    c_verify flipPk flipMsg flipSig = .ok true ∧
      flipSig.data.getD 1 0 = 0 ∧ flipSigBad.data.getD 1 0 = 128 ∧
        flipSigBad.data.length = flipSig.data.length ∧
          (c_verify flipPk flipMsg flipSigBad).isFatal = true ∧
            c_verify flipPk flipMsg flipSigBad ≠ .ok false := by
  decide

/-- C6 (amended): for every public key and every signature buffer that is
well-formed (decodes successfully) but is not the unique valid signature for
`(pk, m)`, `c_verify` returns the boolean `false` — not an error and not an
abort; single-byte flips that keep the buffer decodable therefore yield
`false`, while flips that make it undecodable are fatal decode aborts. -/
theorem verify_wellformed_false (pk : bls_pk) (m : List Byte) (sg : bls_sig)
    (k : BLSPK) (s : BLSSIG) (hpk : BLSPK.deserialize pk.data = .ok k)
    (hs : BLSSIG.deserialize sg.data = .ok s)
    (hbad : s ≠ ⟨k.cs, k.y * hashMsg k.cs m % grpOrd⟩) :
    c_verify pk m sg = .ok false := by
  unfold c_verify
  simp only [hpk, hs]
  unfold BLSPKInG1.verify
  have hfalse : (decide (s.cs = k.cs) &&
      decide (s.s = k.y * hashMsg k.cs m % grpOrd)) = false := by
    by_cases h1 : s.cs = k.cs
    · by_cases h2 : s.s = k.y * hashMsg k.cs m % grpOrd
      · exact absurd (by cases s; simp only [BLSSIG.mk.injEq]; exact ⟨h1, h2⟩) hbad
      · simp [h2]
    · simp [h1]
  rw [hfalse]

/-- C6 amended-claim witness: the well-formed but invalid signature
`⟨cs 1, element 0⟩` verifies to `ok false` under `flipPk`. -/
theorem verify_wellformed_false_witness :
    BLSPK.deserialize flipPk.data = .ok ⟨1, kdf flipSeed 1⟩ ∧
      BLSSIG.deserialize (⟨BLSSIG.serialize ⟨1, 0⟩⟩ : bls_sig).data = .ok ⟨1, 0⟩ ∧
        (⟨1, 0⟩ : BLSSIG) ≠ ⟨(1 : Byte),
          kdf flipSeed 1 * hashMsg 1 flipMsg % grpOrd⟩ ∧
          c_verify flipPk flipMsg ⟨BLSSIG.serialize ⟨1, 0⟩⟩ = .ok false :=
  ⟨by decide, by decide, by decide,
    verify_wellformed_false flipPk flipMsg ⟨BLSSIG.serialize ⟨1, 0⟩⟩
      ⟨1, kdf flipSeed 1⟩ ⟨1, 0⟩ (by decide) (by decide) (by decide)⟩

/-- C7: a seed shorter than 32 bytes is rejected before any key material is
produced: the core key generation refuses it (spec §4.2) and `c_keygen`
surfaces that as the class-1 fatal error signal — never padding the seed,
never returning keys. -/
theorem keygen_short_seed (seed : List Byte) (cs : Byte) (h : seed.length < 32) :
    c_keygen seed cs = .fatal "keygen: seed too short" := by
  unfold c_keygen BLSPKInG1.keygen
  rw [if_pos h]

/-- C7 witness: the empty seed is rejected. -/
theorem keygen_short_seed_witness :
    ([] : List Byte).length < 32 ∧
      c_keygen [] 0 = .fatal "keygen: seed too short" :=
  ⟨by decide, keygen_short_seed [] 0 (by decide)⟩

/-- C8: aggregating zero signatures has one explicitly defined outcome — the
model (following spec §4.5's requirement to pick one of the two allowed
behaviours) rejects it with the `AggregationError` returned as an ordinary
error value, and `c_aggregation` never aborts on it. -/
theorem aggregation_empty :
    c_aggregation [] = .err "AggregationError: empty signature list" ∧
      (c_aggregation []).isFatal = false := by
  decide

/-- C9: `c_keygen` is deterministic — byte-identical seeds and identical
ciphersuite tags give identical key-pair encodings (the embedding of keygen
is a pure function of exactly these two inputs, with no other source of
randomness). -/
theorem keygen_deterministic (s1 s2 : List Byte) (c1 c2 : Byte)
    (hs : s1 = s2) (hc : c1 = c2) : c_keygen s1 c1 = c_keygen s2 c2 := by
  rw [hs, hc]

/-- C9 witness: two calls at the all-zero seed and ciphersuite 1 agree. -/
theorem keygen_deterministic_witness :
    (List.replicate 32 (0 : Byte)) = (List.replicate 32 (0 : Byte)) ∧
      c_keygen (List.replicate 32 (0 : Byte)) 1 =
        c_keygen (List.replicate 32 (0 : Byte)) 1 :=
  ⟨rfl, keygen_deterministic (List.replicate 32 0) (List.replicate 32 0) 1 1 rfl rfl⟩

theorem debugFmt_contains (l : List Byte) (b : Byte) (hb : b ∈ l) :
    ∃ u v, debugFmt l = u ++ (hexByte b ++ v) := by
  induction l with
  | nil => cases hb
  | cons a t ih =>
    rcases List.mem_cons.1 hb with rfl | hbt
    · refine ⟨[], [Char.ofNat 44, Char.ofNat 32] ++ debugFmt t, ?_⟩
      rw [debugFmt]
      simp
    · obtain ⟨u, v, huv⟩ := ih hbt
      refine ⟨hexByte a ++ [Char.ofNat 44, Char.ofNat 32] ++ u, v, ?_⟩
      rw [debugFmt, huv]
      simp

/-- C10: the `Debug` implementations of `bls_sk`, `bls_pk` and `bls_sig`
write every byte of the wrapped data to the formatter in two-digit
hexadecimal — in particular, the full secret key appears in `bls_sk`'s
`Debug` output. -/
theorem debug_exposes_all_bytes (k : bls_sk) (p : bls_pk) (g : bls_sig) (b : Byte) :
    (b ∈ k.data → ∃ u v, (bls_sk.fmt k).data = u ++ (hexByte b ++ v)) ∧
      (b ∈ p.data → ∃ u v, (bls_pk.fmt p).data = u ++ (hexByte b ++ v)) ∧
        (b ∈ g.data → ∃ u v, (bls_sig.fmt g).data = u ++ (hexByte b ++ v)) :=
  ⟨fun h => debugFmt_contains _ _ h, fun h => debugFmt_contains _ _ h,
    fun h => debugFmt_contains _ _ h⟩

/-- C10 witness: the byte `0xab` of a one-byte wrapped value appears in hex
in each `Debug` output. -/
theorem debug_exposes_all_bytes_witness :
    (∃ u v, (bls_sk.fmt ⟨[171]⟩).data = u ++ (hexByte 171 ++ v)) ∧
      (∃ u v, (bls_pk.fmt ⟨[171]⟩).data = u ++ (hexByte 171 ++ v)) ∧
        (∃ u v, (bls_sig.fmt ⟨[171]⟩).data = u ++ (hexByte 171 ++ v)) :=
  ⟨(debug_exposes_all_bytes ⟨[171]⟩ ⟨[171]⟩ ⟨[171]⟩ 171).1 (by decide),
    (debug_exposes_all_bytes ⟨[171]⟩ ⟨[171]⟩ ⟨[171]⟩ 171).2.1 (by decide),
    (debug_exposes_all_bytes ⟨[171]⟩ ⟨[171]⟩ ⟨[171]⟩ 171).2.2 (by decide)⟩

end BlsFfi
